import Mathlib

/-
Verification of the tap-salesforce extraction engine against its
natural-language specification.

The Python sources under tap_salesforce/ are shallowly embedded below:
pure helpers become Lean functions, stateful code threads explicit state
records, fallible code returns `Except`-style results, and machine
integers/floats are modelled with `Int`/`Rat`.  Each embedded definition
keeps the name of the source function it translates; doc comments cite
the source file and line ranges.
-/

set_option maxRecDepth 4000

namespace TapSalesforce

/-! ## Shared modelling primitives -/

/-- Python's built-in `int()` applied to a rational number: truncation
toward zero (`int(x)` floors non-negative floats and ceils negative ones). -/
def pyInt (q : ℚ) : ℤ := if 0 ≤ q then ⌊q⌋ else ⌈q⌉

theorem pyInt_of_nonneg (q : ℚ) (h : 0 ≤ q) : pyInt q = ⌊q⌋ := by
  simp [pyInt, h]

/-! ## Quota Governor: `Bulk.check_bulk_quota_usage`
(tap_salesforce/salesforce/bulk.py, lines 74-106)

The remote `limits` endpoint reports a quota snapshot
`{Max, Remaining}`; the configured ceilings come from
`Salesforce.__init__` (`quota_percent_per_run`, `quota_percent_total`,
salesforce/__init__.py lines 226-229).  The function raises
`TapSalesforceQuotaExceededException` for the total ceiling first, and
otherwise for the per-run cap. -/

/-- Result of a quota check: either it returns normally or it raises
`TapSalesforceQuotaExceededException` with one of two messages. -/
inductive QuotaCheckResult
  | ok
  | quotaExceededTotal
  | quotaExceededPerRun
deriving DecidableEq, Repr

/-- Embedding of `Bulk.check_bulk_quota_usage` (bulk.py lines 74-106).
`quota_max` and `quota_remaining` are the integers from the remote
quota snapshot; `jobs_completed` is `self.sf.jobs_completed`;
`quota_percent_per_run` / `quota_percent_total` are the configured
ceilings (floats in the source, rationals here).
Source computation:
  `max_requests_for_run = int((quota_percent_per_run * quota_max) / 100)`
  `percent_used = (1 - quota_remaining / quota_max) * 100`
with the raise conditions `percent_used > quota_percent_total` and
`elif jobs_completed > max_requests_for_run`. -/
def check_bulk_quota_usage (quota_percent_per_run quota_percent_total : ℚ)
    (jobs_completed : ℤ) (quota_max quota_remaining : ℤ) : QuotaCheckResult :=
  let max_requests_for_run : ℤ := pyInt ((quota_percent_per_run * (quota_max : ℚ)) / 100)
  let percent_used : ℚ := (1 - (quota_remaining : ℚ) / (quota_max : ℚ)) * 100
  if percent_used > quota_percent_total then .quotaExceededTotal
  else if jobs_completed > max_requests_for_run then .quotaExceededPerRun
  else .ok

/-! ## Bulk job close tracking: `Bulk._close_job`
(tap_salesforce/salesforce/bulk.py lines 376-390, with
`self.closed_jobs = []` initialised in `Bulk.__init__`, lines 49-53) -/

/-- Mutable state of one `Bulk` instance relevant to `_close_job`:
the `closed_jobs` list plus a trace of the close requests actually
issued to the remote. -/
structure CloseState where
  closed_jobs : List String
  close_requests : List String
deriving DecidableEq, Repr

/-- `Bulk.__init__` sets `self.closed_jobs = []`; no close request has
been issued yet. -/
def initCloseState : CloseState := ⟨[], []⟩

/-- Embedding of `Bulk._close_job` (bulk.py lines 376-390): if the job
id is already recorded in `closed_jobs` the call returns without any
remote request; otherwise the id is appended to `closed_jobs` and one
close request is issued. -/
def close_job (st : CloseState) (job_id : String) : CloseState :=
  if job_id ∈ st.closed_jobs then st
  else { closed_jobs := st.closed_jobs ++ [job_id],
         close_requests := st.close_requests ++ [job_id] }

/-- A sequence of `_close_job` calls on one `Bulk` instance. -/
def close_jobs (st : CloseState) : List String → CloseState
  | [] => st
  | j :: js => close_jobs (close_job st j) js

/-- Invariant relating issued close requests to the recorded set. -/
def CloseInv (st : CloseState) : Prop :=
  st.close_requests.Nodup ∧ ∀ j ∈ st.close_requests, j ∈ st.closed_jobs

theorem closeInv_init : CloseInv initCloseState := by
  constructor
  · simp [initCloseState]
  · simp [initCloseState]

theorem close_job_closed_mono (st : CloseState) (j : String) :
    st.closed_jobs ⊆ (close_job st j).closed_jobs := by
  unfold close_job
  split
  · exact fun _ h => h
  · intro x hx
    simp [List.mem_append]
    exact Or.inl hx

theorem close_job_inv (st : CloseState) (j : String) (h : CloseInv st) :
    CloseInv (close_job st j) := by
  unfold close_job
  split
  · exact h
  · rename_i hnot
    obtain ⟨hnd, hsub⟩ := h
    constructor
    · simp only [List.nodup_append, List.nodup_cons, List.nodup_nil]
      refine ⟨hnd, by simp, ?_⟩
      intro x hx
      simp only [List.mem_singleton]
      intro hxj
      exact hnot (hxj ▸ hsub x hx)
    · intro x hx
      rcases List.mem_append.mp hx with hx1 | hx2
      · exact List.mem_append.mpr (Or.inl (hsub x hx1))
      · exact List.mem_append.mpr (Or.inr hx2)

theorem close_jobs_inv (calls : List String) :
    ∀ st : CloseState, CloseInv st → CloseInv (close_jobs st calls) := by
  induction calls with
  | nil => intro st h; exact h
  | cons j js ih =>
      intro st h
      exact ih (close_job st j) (close_job_inv st j h)

theorem close_jobs_closed_mono (calls : List String) :
    ∀ st : CloseState, st.closed_jobs ⊆ (close_jobs st calls).closed_jobs := by
  induction calls with
  | nil => intro st; exact fun _ h => h
  | cons j js ih =>
      intro st
      exact fun x hx => ih (close_job st j) (close_job_closed_mono st j hx)

theorem close_jobs_records_calls (calls : List String) :
    ∀ st : CloseState, ∀ j ∈ calls, j ∈ (close_jobs st calls).closed_jobs := by
  induction calls with
  | nil => intro st j h; cases h
  | cons c cs ih =>
      intro st j hj
      rcases List.mem_cons.mp hj with h1 | h2
      · subst h1
        apply close_jobs_closed_mono cs (close_job st j)
        unfold close_job
        split
        · assumption
        · simp
      · exact ih (close_job st c) j h2

/-! ## Pre-emission transform hook: `transform_bulk_data_hook`
(tap_salesforce/sync.py lines 16-37) -/

/-- Python values as seen by the transform hook: strings, dicts
(association lists), `None`, booleans and numbers. -/
inductive PyVal
  | pstr (s : String)
  | pdict (kvs : List (String × PyVal))
  | pnone
  | pbool (b : Bool)
  | pnum (n : ℤ)

/-- Python's `==` against a string literal: true exactly for an equal
string (a dict, `None`, bool or number never equals a string). -/
def PyVal.eqStr : PyVal → String → Bool
  | .pstr s, t => s == t
  | _, _ => false

/-- `BLACKLISTED_FIELDS = set(['attributes'])` (sync.py line 12). -/
def BLACKLISTED_FIELDS : List String := ["attributes"]

/-- Embedding of `remove_blacklisted_fields` (sync.py lines 16-17):
keeps the entries whose key is not blacklisted. -/
def remove_blacklisted_fields (kvs : List (String × PyVal)) : List (String × PyVal) :=
  kvs.filter (fun kv => !(BLACKLISTED_FIELDS.contains kv.1))

/-- Embedding of `transform_bulk_data_hook` (sync.py lines 20-37).
`schemaType` models the schema's `'type'` entry: `none` when the schema
dict has no `'type'` key, `some l` for a type list `l`.  The first
check uses `schema.get('type', [])` (total), but the empty-string check
indexes `schema['type']` directly, which raises `KeyError` when the key
is absent; that fallible access is the `Except.error` case. -/
def transform_bulk_data_hook (data : PyVal) (schemaType : Option (List String)) :
    Except String PyVal :=
  let result := match data with
    | .pdict kvs => PyVal.pdict (remove_blacklisted_fields kvs)
    | _ => data
  let result := if data.eqStr "0.0" && (schemaType.getD []).contains "integer" then
      PyVal.pstr "0"
    else result
  if data.eqStr "" then
    match schemaType with
    | none => .error "KeyError: type"
    | some tl => if tl.contains "null" then .ok PyVal.pnone else .ok result
  else .ok result

/-! ## Bulk job resumption: `Bulk.job_exists` and `resume_syncing_bulk_query`
(tap_salesforce/salesforce/bulk.py lines 278-294,
tap_salesforce/sync.py lines 53-100) -/

/-- A `requests.RequestException` raised by the job-existence probe, as
inspected by `job_exists`: the response's Content-Type header and the
JSON body's `exceptionCode`. -/
structure ReqError where
  contentType : String
  exceptionCode : String
deriving DecidableEq, Repr

/-- Embedding of `Bulk.job_exists` (bulk.py lines 278-294).  The probe
argument is the outcome of the `GET job/{job_id}` request: `.ok` when
the job is found, `.error ex` when requests raised.  A JSON response
whose `exceptionCode` is `InvalidJob` yields `false`; any other request
error is re-raised unchanged (`raise`). -/
def job_exists (probe : Except ReqError Unit) : Except ReqError Bool :=
  match probe with
  | .ok _ => .ok true
  | .error ex =>
      if ex.contentType = "application/json" then
        if ex.exceptionCode = "InvalidJob" then .ok false
        else .error ex
      else .error ex

/-- Per-record update of the local `current_bookmark` inside
`resume_syncing_bulk_query` (sync.py lines 87-89): a record's
replication value (`none` when the stream has no replication key)
advances the highest-seen bookmark only when it is ≤ the sync start
time and strictly greater than the current value.  Timestamps are
modelled as integers. -/
def update_highest_bookmark (start_time : ℤ) (bk : ℤ) (v : Option ℤ) : ℤ :=
  match v with
  | some v => if v ≤ start_time ∧ v > bk then v else bk
  | none => bk

/-- The highest-seen bookmark after streaming one batch's records. -/
def highest_bookmark (start_time : ℤ) (bk : ℤ) (vals : List (Option ℤ)) : ℤ :=
  vals.foldl (update_highest_bookmark start_time) bk

/-- The highest-seen bookmark after streaming a list of whole batches
(`recsOf` gives each batch's record replication values in order). -/
def bookmark_after (start_time : ℤ) (recsOf : String → List (Option ℤ))
    (bk : ℤ) (ids : List String) : ℤ :=
  ids.foldl (fun b id => highest_bookmark start_time b (recsOf id)) bk

/-- Observable effects of one run of the resume loop: the batch ids
fetched via `get_batch_results`, in order, and the `singer.write_state`
flushes, each carrying the persisted pending `BatchIDs` list and the
persisted `JobHighestBookmarkSeen` at that flush. -/
structure ResumeTrace where
  fetched : List String
  flushes : List (List String × ℤ)
deriving DecidableEq, Repr

/-- Embedding of the batch loop of `resume_syncing_bulk_query`
(sync.py lines 72-98).  The Python loop iterates over `batch_ids[:]`
(a copy, the `toProcess` argument) while `batch_ids.remove(batch_id)`
mutates the list aliased inside the persisted state (the `pending`
argument).  For each batch: its records are fetched and streamed, the
highest-seen bookmark is written into the state, the batch id is
removed from the pending list, and only then is the state flushed. -/
def resume_loop (start_time : ℤ) (recsOf : String → List (Option ℤ)) :
    List String → List String → ℤ → ResumeTrace
  | [], _, _ => ⟨[], []⟩
  | id :: rest, pending, bk =>
      let bk' := highest_bookmark start_time bk (recsOf id)
      let pending' := pending.erase id
      let t := resume_loop start_time recsOf rest pending' bk'
      ⟨id :: t.fetched, (pending', bk') :: t.flushes⟩

/-- Embedding of `resume_syncing_bulk_query` (sync.py lines 53-100):
the stored job id is first re-validated with `job_exists`; a vanished
job returns immediately (no batch fetched, trace empty), a request
error propagates, and otherwise the batch loop runs over the stored
`BatchIDs`. -/
def resume_syncing_bulk_query (probe : Except ReqError Unit)
    (batch_ids : List String) (start_time : ℤ) (bk0 : ℤ)
    (recsOf : String → List (Option ℤ)) : Except ReqError ResumeTrace :=
  match job_exists probe with
  | .error ex => .error ex
  | .ok false => .ok ⟨[], []⟩
  | .ok true => .ok (resume_loop start_time recsOf batch_ids batch_ids bk0)

theorem resume_loop_self_eq (start_time : ℤ) (recsOf : String → List (Option ℤ)) :
    ∀ (l : List String) (bk : ℤ),
      resume_loop start_time recsOf l l bk
        = ⟨l, (List.range l.length).map (fun k =>
            (l.drop (k + 1), bookmark_after start_time recsOf bk (l.take (k + 1))))⟩ := by
  intro l
  induction l with
  | nil => intro bk; rfl
  | cons id rest ih =>
      intro bk
      have herase : (id :: rest).erase id = rest := by
        simp [List.erase_cons_head]
      simp only [resume_loop, herase, ih (highest_bookmark start_time bk (recsOf id))]
      refine congrArg₂ ResumeTrace.mk rfl ?_
      simp only [List.length_cons, List.range_succ_eq_map, List.map_cons, List.map_map]
      refine congrArg₂ List.cons rfl ?_
      apply List.map_congr_left
      intro k _
      simp only [Function.comp_apply, List.drop_succ_cons, List.take_succ_cons]
      rfl

/-! ## Remote Job Client: `Salesforce._make_request`
(tap_salesforce/salesforce/__init__.py lines 277-306)

The function body issues the HTTP call, raises for an error status
(`resp.raise_for_status()`, re-raised unchanged), runs the REST quota
check, and optionally validates the body as JSON.  It is decorated with
`backoff.on_exception(backoff.expo, (ConnectionError, JSONDecodeError),
max_tries=10, factor=2)`: only those two exception classes are retried,
with waits drawn from the exponential generator `2 * 2^n`, and at most
10 attempts in total before the last exception is re-raised. -/

/-- Outcome of one execution of `_make_request`'s body. -/
inductive AttemptOutcome
  | success (resp : ℕ)
  | connError
  | jsonDecodeError
  | httpError (status : ℕ) (body : String)
  | quotaExceeded
deriving DecidableEq, Repr

/-- The decorator's retry predicate: exactly `ConnectionError` and
`JSONDecodeError` are in the retried exception tuple. -/
def retryable : AttemptOutcome → Bool
  | .connError => true
  | .jsonDecodeError => true
  | _ => false

/-- Errors escaping `_make_request` to its caller. -/
inductive RequestError
  | conn
  | jsonDecode
  | http (status : ℕ) (body : String)
  | quota
deriving DecidableEq, Repr

/-- The exception corresponding to a failed attempt outcome. -/
def toError : AttemptOutcome → RequestError
  | .connError => .conn
  | .jsonDecodeError => .jsonDecode
  | .httpError s b => .http s b
  | .quotaExceeded => .quota
  | .success _ => .conn

/-- Observable behaviour of one `_make_request` call: final result,
total attempts issued, and the backoff waits between attempts. -/
structure RequestTrace where
  result : Except RequestError ℕ
  attempts : ℕ
  waits : List ℕ
deriving Repr

/-- The retry loop installed by `backoff.on_exception` around
`_make_request`'s body: `env i` is the outcome of the i-th attempt,
`triesLeft` the remaining attempt budget.  A retryable outcome with
budget left sleeps `2 * 2^i` (the `expo` generator with `factor=2`)
and re-runs the body; a retryable outcome with no budget left, and
every non-retryable exception, escapes immediately. -/
def backoff_retry (env : ℕ → AttemptOutcome) : ℕ → ℕ → RequestTrace
  | i, 0 => ⟨.error .conn, i, []⟩
  | i, tl + 1 =>
      match env i with
      | .success r => ⟨.ok r, i + 1, []⟩
      | .connError =>
          if tl = 0 then ⟨.error .conn, i + 1, []⟩
          else
            let t := backoff_retry env (i + 1) tl
            ⟨t.result, t.attempts, (2 * 2 ^ i) :: t.waits⟩
      | .jsonDecodeError =>
          if tl = 0 then ⟨.error .jsonDecode, i + 1, []⟩
          else
            let t := backoff_retry env (i + 1) tl
            ⟨t.result, t.attempts, (2 * 2 ^ i) :: t.waits⟩
      | .httpError s b => ⟨.error (.http s b), i + 1, []⟩
      | .quotaExceeded => ⟨.error .quota, i + 1, []⟩

/-- Embedding of the decorated `Salesforce._make_request`
(salesforce/__init__.py lines 277-306): the retry loop started with the
full budget of `max_tries=10`. -/
def make_request (env : ℕ → AttemptOutcome) : RequestTrace :=
  backoff_retry env 0 10

theorem backoff_retry_bounds (env : ℕ → AttemptOutcome) :
    ∀ (tl i : ℕ), 1 ≤ tl →
      (i + 1 ≤ (backoff_retry env i tl).attempts)
      ∧ ((backoff_retry env i tl).attempts ≤ i + tl)
      ∧ (∀ j, i ≤ j → j + 1 < (backoff_retry env i tl).attempts →
          retryable (env j) = true)
      ∧ ((backoff_retry env i tl).waits
          = (List.range ((backoff_retry env i tl).attempts - 1 - i)).map
              (fun k => 2 * 2 ^ (i + k))) := by
  intro tl
  induction tl with
  | zero => intro i h; omega
  | succ tl ih =>
      intro i _
      rcases htl : tl with _ | tl2
      · subst htl
        cases henv : env i <;>
          simp [backoff_retry, henv] <;> omega
      · have h1 : 1 ≤ tl := by omega
        rw [← htl] at *
        have iha := ih (i + 1) h1
        cases henv : env i <;>
          simp only [backoff_retry, henv, htl] <;> rw [← htl]
        · refine ⟨by omega, by omega, ?_, by simp⟩
          intro j hij hj
          simp at hj
          omega
        · rw [if_neg (by omega)]
          obtain ⟨ha1, ha2, hretry, hwaits⟩ := iha
          refine ⟨by simp; omega, by simp; omega, ?_, ?_⟩
          · intro j hij hlt
            simp at hlt
            rcases Nat.eq_or_lt_of_le hij with heq | hlt2
            · subst heq; simp [retryable, henv]
            · exact hretry j (by omega) (by omega)
          · simp only [hwaits]
            have hge : i + 1 + 1 ≤ (backoff_retry env (i + 1) tl).attempts := ha1
            have : (backoff_retry env (i + 1) tl).attempts - 1 - i
                = ((backoff_retry env (i + 1) tl).attempts - 1 - (i + 1)) + 1 := by
              omega
            rw [this, List.range_succ_eq_map, List.map_cons, List.map_map]
            refine congrArg₂ List.cons (by ring_nf) ?_
            apply List.map_congr_left
            intro k _
            simp only [Function.comp_apply]
            have hexp : i + 1 + k = i + (k + 1) := by omega
            rw [hexp]
        · rw [if_neg (by omega)]
          obtain ⟨ha1, ha2, hretry, hwaits⟩ := iha
          refine ⟨by simp; omega, by simp; omega, ?_, ?_⟩
          · intro j hij hlt
            simp at hlt
            rcases Nat.eq_or_lt_of_le hij with heq | hlt2
            · subst heq; simp [retryable, henv]
            · exact hretry j (by omega) (by omega)
          · simp only [hwaits]
            have hge : i + 1 + 1 ≤ (backoff_retry env (i + 1) tl).attempts := ha1
            have : (backoff_retry env (i + 1) tl).attempts - 1 - i
                = ((backoff_retry env (i + 1) tl).attempts - 1 - (i + 1)) + 1 := by
              omega
            rw [this, List.range_succ_eq_map, List.map_cons, List.map_map]
            refine congrArg₂ List.cons (by ring_nf) ?_
            apply List.map_congr_left
            intro k _
            simp only [Function.comp_apply]
            have hexp : i + 1 + k = i + (k + 1) := by omega
            rw [hexp]
        · refine ⟨by omega, by omega, ?_, by simp⟩
          intro j hij hj
          simp at hj
          omega
        · refine ⟨by omega, by omega, ?_, by simp⟩
          intro j hij hj
          simp at hj
          omega

theorem backoff_retry_exhaust (env : ℕ → AttemptOutcome) :
    ∀ (tl i : ℕ), 1 ≤ tl →
      (∀ j, i ≤ j → j < i + tl → retryable (env j) = true) →
      (backoff_retry env i tl).attempts = i + tl
      ∧ (backoff_retry env i tl).result = .error (toError (env (i + tl - 1))) := by
  intro tl
  induction tl with
  | zero => intro i h; omega
  | succ tl ih =>
      intro i _ hall
      have hi := hall i (le_refl i) (by omega)
      rcases htl : tl with _ | tl2
      · subst htl
        cases henv : env i <;> rw [henv] at hi <;> simp [retryable] at hi <;>
          simp [backoff_retry, henv, toError]
      · have h1 : 1 ≤ tl := by omega
        rw [← htl] at *
        have iha := ih (i + 1) h1 (fun j h1j h2j => hall j (by omega) (by omega))
        cases henv : env i <;> rw [henv] at hi <;> simp [retryable] at hi <;>
          simp only [backoff_retry, henv] <;> rw [if_neg (by omega)] <;>
          refine ⟨by simp [iha.1]; omega, ?_⟩ <;> simp only [iha.2] <;>
          refine congrArg _ (congrArg _ (congrArg env (by omega)))

/-! ## Claim theorems for C1, C8, C10 -/

/-- C1: for every bulk quota snapshot, `check_bulk_quota_usage` raises a
`TapSalesforceQuotaExceededException` if and only if either (a) the
percentage used, `(1 - remaining/max) * 100`, strictly exceeds the
configured total-quota ceiling, or (b) otherwise the run's
completed-jobs counter strictly exceeds the per-run cap
`floor(quota_percent_per_run * max / 100)`; when neither condition
holds it returns normally. -/
theorem check_bulk_quota_usage_raises_iff
    (qpr qpt : ℚ) (jobs quota_max quota_remaining : ℤ)
    (hmax : 0 < quota_max) (hrun : 0 ≤ qpr) :
    check_bulk_quota_usage qpr qpt jobs quota_max quota_remaining ≠ .ok ↔
      ((1 - (quota_remaining : ℚ) / (quota_max : ℚ)) * 100 > qpt
       ∨ (¬ ((1 - (quota_remaining : ℚ) / (quota_max : ℚ)) * 100 > qpt)
          ∧ jobs > ⌊(qpr * (quota_max : ℚ)) / 100⌋)) := by
  have hnn : (0 : ℚ) ≤ (qpr * (quota_max : ℚ)) / 100 := by
    apply div_nonneg
    · exact mul_nonneg hrun (by exact_mod_cast hmax.le)
    · norm_num
  simp only [check_bulk_quota_usage, pyInt_of_nonneg _ hnn]
  split_ifs with h1 h2 <;> simp_all

/-- Witness for C1 at the spec's own scenario: 81/100 of the bulk quota
used against an 80% total ceiling raises. -/
theorem check_bulk_quota_usage_raises_iff_witness :
    check_bulk_quota_usage 25 80 0 100 19 ≠ .ok :=
  (check_bulk_quota_usage_raises_iff 25 80 0 100 19 (by norm_num) (by norm_num)).mpr
    (Or.inl (by norm_num))

/-- C8: closing a bulk job is idempotent over the life of one `Bulk`
instance: for every sequence of `_close_job` calls starting from
`Bulk.__init__`'s empty `closed_jobs`, at most one close request is
issued per distinct job id; a call whose id is already recorded in
`closed_jobs` returns without issuing any remote request; and every id
for which `_close_job` was called ends up recorded in `closed_jobs`. -/
theorem close_job_idempotent_per_id (calls : List String) (j : String) :
    ((close_jobs initCloseState calls).close_requests.count j ≤ 1)
    ∧ (∀ st : CloseState, j ∈ st.closed_jobs → close_job st j = st)
    ∧ (j ∈ calls → j ∈ (close_jobs initCloseState calls).closed_jobs) := by
  refine ⟨?_, ?_, ?_⟩
  · have h := close_jobs_inv calls initCloseState closeInv_init
    exact List.nodup_iff_count_le_one.mp h.1 j
  · intro st hj
    unfold close_job
    simp [hj]
  · exact fun h => close_jobs_records_calls calls initCloseState j h

/-- Witness for C8: a sequence that closes job "a", then "x", then "a"
again; "a" is recorded, and the trace holds at most one request for it. -/
theorem close_job_idempotent_per_id_witness :
    "a" ∈ ["a", "x", "a"]
    ∧ "a" ∈ (close_jobs initCloseState ["a", "x", "a"]).closed_jobs :=
  ⟨by decide, (close_job_idempotent_per_id ["a", "x", "a"] "a").2.2 (by decide)⟩

/-- C10 counterexample: the claim says all values other than the three
special cases pass through the hook unchanged, but an empty-string
value paired with a schema that has no `'type'` key makes
`transform_bulk_data_hook` raise a `KeyError` (sync.py line 34 indexes
`schema['type']` directly), rather than passing the value through. -/
theorem transform_bulk_data_hook_keyerror :
    transform_bulk_data_hook (PyVal.pstr "") none = .error "KeyError: type" := rfl

/-- C10 amended: for every schema that does carry a `'type'` list, the
hook maps the string "0.0" to "0" when the list contains "integer",
maps the empty string to `None` when the list contains "null", strips
the key "attributes" from every dict value, and passes every other
value through unchanged; when the value is the empty string and the
schema has no `'type'` key the hook instead raises a `KeyError`. -/
theorem transform_bulk_data_hook_spec (data : PyVal) (tl : List String) :
    (data = PyVal.pstr "0.0" → "integer" ∈ tl →
        transform_bulk_data_hook data (some tl) = .ok (PyVal.pstr "0"))
    ∧ (data = PyVal.pstr "" → "null" ∈ tl →
        transform_bulk_data_hook data (some tl) = .ok PyVal.pnone)
    ∧ (data = PyVal.pstr "" → "null" ∉ tl →
        transform_bulk_data_hook data (some tl) = .ok data)
    ∧ (∀ kvs, data = PyVal.pdict kvs →
        transform_bulk_data_hook data (some tl)
          = .ok (PyVal.pdict (remove_blacklisted_fields kvs)))
    ∧ (∀ kvs, ∀ kv ∈ remove_blacklisted_fields kvs, kv.1 ≠ "attributes")
    ∧ (data = PyVal.pstr "0.0" → "integer" ∉ tl →
        transform_bulk_data_hook data (some tl) = .ok data)
    ∧ (∀ s, data = PyVal.pstr s → s ≠ "0.0" → s ≠ "" →
        transform_bulk_data_hook data (some tl) = .ok data)
    ∧ (data = PyVal.pnone ∨ (∃ b, data = PyVal.pbool b) ∨ (∃ n, data = PyVal.pnum n) →
        transform_bulk_data_hook data (some tl) = .ok data) := by
  refine ⟨?_, ?_, ?_, ?_, ?_, ?_, ?_, ?_⟩
  · rintro rfl hmem
    simp [transform_bulk_data_hook, PyVal.eqStr, hmem]
  · rintro rfl hmem
    simp [transform_bulk_data_hook, PyVal.eqStr, hmem]
  · rintro rfl hmem
    simp [transform_bulk_data_hook, PyVal.eqStr, hmem]
  · rintro kvs rfl
    simp [transform_bulk_data_hook, PyVal.eqStr]
  · intro kvs kv hkv
    have h := List.of_mem_filter hkv
    intro hk
    rw [hk] at h
    simp [BLACKLISTED_FIELDS] at h
  · rintro rfl hmem
    simp [transform_bulk_data_hook, PyVal.eqStr, hmem]
  · rintro s rfl h00 hemp
    simp [transform_bulk_data_hook, PyVal.eqStr, h00, hemp]
  · rintro (rfl | ⟨b, rfl⟩ | ⟨n, rfl⟩) <;>
      simp [transform_bulk_data_hook, PyVal.eqStr]

/-- Witness for C10 at a concrete input: the string "0.0" against a
schema whose type list contains "integer" becomes "0". -/
theorem transform_bulk_data_hook_spec_witness :
    transform_bulk_data_hook (PyVal.pstr "0.0") (some ["integer"]) = .ok (PyVal.pstr "0") :=
  (transform_bulk_data_hook_spec (PyVal.pstr "0.0") ["integer"]).1 rfl (by decide)

/-- C6: resuming a bulk job whose id the remote no longer recognizes
(a request error with a JSON body whose `exceptionCode` is
`InvalidJob`) does not raise: `resume_syncing_bulk_query` returns
control to the caller with an empty trace — no batch is fetched — so
the stored job bookmark can be dropped; any other request error during
the existence check propagates unchanged. -/
theorem resume_invalid_job_graceful (batch_ids : List String)
    (start_time bk0 : ℤ) (recsOf : String → List (Option ℤ)) :
    (resume_syncing_bulk_query (.error ⟨"application/json", "InvalidJob"⟩)
        batch_ids start_time bk0 recsOf = .ok ⟨[], []⟩)
    ∧ (∀ ex : ReqError,
        ¬(ex.contentType = "application/json" ∧ ex.exceptionCode = "InvalidJob") →
        resume_syncing_bulk_query (.error ex) batch_ids start_time bk0 recsOf
          = .error ex) := by
  constructor
  · rfl
  · intro ex hn
    by_cases h1 : ex.contentType = "application/json"
    · by_cases h2 : ex.exceptionCode = "InvalidJob"
      · exact absurd ⟨h1, h2⟩ hn
      · simp [resume_syncing_bulk_query, job_exists, h1, h2]
    · simp [resume_syncing_bulk_query, job_exists, h1]

/-- Witness for C6: a request error that is not an InvalidJob JSON
answer (here a plain HTML 500 body) propagates to the caller. -/
theorem resume_invalid_job_graceful_witness :
    resume_syncing_bulk_query (.error ⟨"text/html", "ServerError"⟩)
        ["b1"] 0 0 (fun _ => []) = .error ⟨"text/html", "ServerError"⟩ :=
  (resume_invalid_job_graceful ["b1"] 0 0 (fun _ => [])).2
    ⟨"text/html", "ServerError"⟩ (by simp)

/-- C7: in the resume loop, after batch k's records are fully emitted
the persisted pending set at the k-th flush is exactly the original
list with its first k+1 ids removed — that batch id and only that
batch id is newly removed — together with the highest-seen bookmark
over the first k+1 batches, and this flush happens before the next
batch is fetched (the flush list is built per batch, in loop order);
the ids fetched are exactly the stored `BatchIDs`; and when the ids
are distinct, an id belonging to a completed prefix is never fetched
again by a later resumption that starts from the persisted pending
list. -/
theorem resume_flush_per_batch (start_time : ℤ)
    (recsOf : String → List (Option ℤ)) (batch_ids : List String) (bk0 : ℤ) :
    ((resume_loop start_time recsOf batch_ids batch_ids bk0).fetched = batch_ids)
    ∧ ((resume_loop start_time recsOf batch_ids batch_ids bk0).flushes
        = (List.range batch_ids.length).map (fun k =>
            (batch_ids.drop (k + 1),
             bookmark_after start_time recsOf bk0 (batch_ids.take (k + 1)))))
    ∧ (batch_ids.Nodup → ∀ (k : ℕ) (s2 bk2 : ℤ) (r2 : String → List (Option ℤ)),
        ∀ j ∈ batch_ids.take (k + 1),
          j ∉ (resume_loop s2 r2 (batch_ids.drop (k + 1))
                  (batch_ids.drop (k + 1)) bk2).fetched) := by
  refine ⟨?_, ?_, ?_⟩
  · rw [resume_loop_self_eq]
  · rw [resume_loop_self_eq]
  · intro hnd k s2 bk2 r2 j hj
    rw [resume_loop_self_eq]
    have hsplit : batch_ids.take (k + 1) ++ batch_ids.drop (k + 1) = batch_ids :=
      List.take_append_drop (k + 1) batch_ids
    have hnd2 : (batch_ids.take (k + 1) ++ batch_ids.drop (k + 1)).Nodup := by
      rw [hsplit]; exact hnd
    have hdisj := (List.nodup_append.mp hnd2).2.2
    exact hdisj hj

/-- Witness for C7: with two distinct stored batch ids, the id
completed before the first flush is absent from a later resumption's
fetches, which start from the persisted pending list. -/
theorem resume_flush_per_batch_witness :
    "b1" ∈ (["b1", "b2"].take 1)
    ∧ "b1" ∉ (resume_loop 0 (fun _ => []) (["b1", "b2"].drop 1)
        (["b1", "b2"].drop 1) 0).fetched :=
  ⟨by decide,
   (resume_flush_per_batch 0 (fun _ => []) ["b1", "b2"] 0).2.2
     (by decide) 0 0 0 (fun _ => []) "b1" (by decide)⟩

/-- C9: `_make_request` retries, with exponential backoff waits
`2 * 2^k` and at most 10 attempts in total, only when the failure is a
connection-level error or a malformed-response-body (JSON decode)
error; an HTTP error status is never retried and propagates
immediately carrying the response's status and body; and exhausting
the retry budget escalates the underlying error to the caller. -/
theorem make_request_retry_policy (env : ℕ → AttemptOutcome) :
    ((make_request env).attempts ≤ 10)
    ∧ (∀ j, j + 1 < (make_request env).attempts → retryable (env j) = true)
    ∧ ((make_request env).waits
        = (List.range ((make_request env).attempts - 1)).map (fun k => 2 * 2 ^ k))
    ∧ (∀ s b, env 0 = .httpError s b →
        make_request env = ⟨.error (.http s b), 1, []⟩)
    ∧ ((∀ j, j < 10 → retryable (env j) = true) →
        (make_request env).attempts = 10
        ∧ (make_request env).result = .error (toError (env 9))) := by
  obtain ⟨h1, h2, h3, h4⟩ := backoff_retry_bounds env 10 0 (by norm_num)
  refine ⟨?_, ?_, ?_, ?_, ?_⟩
  · simpa [make_request] using h2
  · intro j hj
    exact h3 j (Nat.zero_le j) hj
  · simpa [make_request] using h4
  · intro s b hsb
    show backoff_retry env 0 (9 + 1) = _
    rw [backoff_retry, hsb]
  · intro hall
    have := backoff_retry_exhaust env 10 0 (by norm_num)
      (fun j _ hj => hall j (by omega))
    simpa [make_request] using this

/-- Witness for C9: ten consecutive connection failures exhaust the
budget and escalate the connection error. -/
theorem make_request_retry_policy_witness :
    (make_request (fun _ => AttemptOutcome.connError)).attempts = 10
    ∧ (make_request (fun _ => AttemptOutcome.connError)).result
        = .error RequestError.conn :=
  (make_request_retry_policy (fun _ => AttemptOutcome.connError)).2.2.2.2
    (fun _ _ => rfl)

/-! ## Bulk query fallback: `Bulk._bulk_query`
(tap_salesforce/salesforce/bulk.py lines 140-170, with
`_bulk_query_with_pk_chunking` lines 183-200 and `_create_job`
lines 202-230) -/

/-- `DEFAULT_CHUNK_SIZE = 250000` (bulk.py line 21). -/
def DEFAULT_CHUNK_SIZE : ℕ := 250000

/-- `FALLBACK_CHUNK_SIZE = 2000` (bulk.py line 22). -/
def FALLBACK_CHUNK_SIZE : ℕ := 2000

/-- Remote side effects of the bulk-query engine. -/
inductive BulkEv
  | createJob (pk_chunking : Bool) (chunkSize : ℕ)
  | addBatch (job_id : ℕ)
  | closeJob (job_id : ℕ)
deriving DecidableEq, Repr

/-- Python exceptions escaping `_bulk_query`. -/
inductive PyError
  | tapSalesforceException (msg : String)
  | unboundLocalError (name : String)
deriving DecidableEq, Repr

/-- Embedding of `_bulk_query_with_pk_chunking` (bulk.py lines
183-200) as called from `try_bulking_with_pk_chunking` (lines
117-138): create a job with the PK-chunking header (chunk size
`DEFAULT_CHUNK_SIZE`, or `FALLBACK_CHUNK_SIZE` when
`use_fall_back_chunk_size` is set, `_create_job` lines 209-212), add
the query batch, poll the chunked batches; if any batch ends Failed
the function raises before closing, otherwise the job is closed and
the completed batch ids are returned.  `job_id` and `pollFailed` /
`completed` are the remote's answers for this attempt. -/
def bulk_query_with_pk_chunking (use_fall_back_chunk_size : Bool) (job_id : ℕ)
    (pollFailed : Bool) (completed : List ℕ) :
    Except PyError (List ℕ) × List BulkEv :=
  let chunk_size := if use_fall_back_chunk_size then FALLBACK_CHUNK_SIZE
    else DEFAULT_CHUNK_SIZE
  let evs := [BulkEv.createJob true chunk_size, BulkEv.addBatch job_id]
  if pollFailed then
    (.error (.tapSalesforceException "One or more batches failed during PK chunked job"),
     evs)
  else (.ok completed, evs ++ [BulkEv.closeJob job_id])

/-- Embedding of `Bulk._bulk_query` (bulk.py lines 140-170).  The
first PK-chunked attempt runs at the default chunk size; on any
exception a second attempt runs with `use_fall_back_chunk_size=True`.
If that also fails, the handler at line 147 evaluates
`job_id in self.closed_jobs` — but `job_id` is a function local whose
first assignment is only at line 157, so Python raises
`UnboundLocalError` there and the unpartitioned fallback of lines
150-170 (close stale job, `_create_job` without chunking, add batch,
close, poll, stream results) is unreachable. -/
def bulk_query (j1 : ℕ) (f1 : Bool) (c1 : List ℕ)
    (j2 : ℕ) (f2 : Bool) (c2 : List ℕ) :
    Except PyError (List ℕ) × List BulkEv :=
  match bulk_query_with_pk_chunking false j1 f1 c1 with
  | (.ok recs, evs) => (.ok recs, evs)
  | (.error _, evs1) =>
      match bulk_query_with_pk_chunking true j2 f2 c2 with
      | (.ok recs, evs2) => (.ok recs, evs1 ++ evs2)
      | (.error _, evs2) => (.error (.unboundLocalError "job_id"), evs1 ++ evs2)

/-! ## Simple-sync bookmark advancement in `sync_records`
(tap_salesforce/sync.py lines 570-590, non-pk-chunked branch) -/

/-- Per-record bookmark write of the simple (non-pk-chunked) branch of
`sync_records` (sync.py lines 584-590): when the record carries a
replication-key value (parsed timestamp, modelled as `ℤ`) and that
value is ≤ the sync-start time, the persisted bookmark is overwritten
with the record's value — with no comparison against the previous
bookmark; otherwise the bookmark is left as it was. -/
def sync_records_bookmark_step (start_time : ℤ) (bk : Option ℤ) (v : Option ℤ) :
    Option ℤ :=
  match v with
  | some rv => if rv ≤ start_time then some rv else bk
  | none => bk

/-- The sequence of persisted bookmarks after each processed record. -/
def sync_records_bookmarks (start_time : ℤ) (bk : Option ℤ) :
    List (Option ℤ) → List (Option ℤ)
  | [] => []
  | v :: vs =>
      let b := sync_records_bookmark_step start_time bk v
      b :: sync_records_bookmarks start_time b vs

/-- Ordering on persisted bookmarks: an unset bookmark precedes
everything; a set bookmark never regresses to unset and compares by
value. -/
def bookmarkLe : Option ℤ → Option ℤ → Prop
  | none, _ => True
  | some _, none => False
  | some a, some b => a ≤ b

instance bookmarkLe.instDecidable (a b : Option ℤ) : Decidable (bookmarkLe a b) :=
  match a, b with
  | none, _ => isTrue trivial
  | some _, none => isFalse (fun h => h)
  | some x, some y => if h : x ≤ y then isTrue h else isFalse h

theorem bookmarkLe_refl (a : Option ℤ) : bookmarkLe a a := by
  cases a <;> simp [bookmarkLe]

theorem bookmark_step_le (start : ℤ) (bk : Option ℤ) (v : Option ℤ)
    (h : ∀ w, v = some w → bookmarkLe bk (some w)) :
    bookmarkLe bk (sync_records_bookmark_step start bk v) := by
  cases v with
  | none => exact bookmarkLe_refl bk
  | some w =>
      simp only [sync_records_bookmark_step]
      split_ifs with hw
      · exact h w rfl
      · exact bookmarkLe_refl bk

theorem sync_records_bookmarks_chain (start : ℤ) :
    ∀ (recs : List (Option ℤ)) (bk : Option ℤ),
      (recs.filterMap id).Sorted (· ≤ ·) →
      (∀ w ∈ recs.filterMap id, bookmarkLe bk (some w)) →
      List.Chain' bookmarkLe (sync_records_bookmarks start bk recs) := by
  intro recs
  induction recs with
  | nil => intro bk _ _; simp [sync_records_bookmarks]
  | cons v vs ih =>
      intro bk hsorted hinit
      have hvals : (v :: vs).filterMap id
          = (match v with | some x => [x] | none => []) ++ vs.filterMap id := by
        cases v <;> simp
      rw [hvals] at hsorted hinit
      have hsorted2 : (vs.filterMap id).Sorted (· ≤ ·) :=
        List.Pairwise.sublist (List.sublist_append_right _ _) hsorted
      have hnext : ∀ w ∈ vs.filterMap id,
          bookmarkLe (sync_records_bookmark_step start bk v) (some w) := by
        intro w hw
        cases v with
        | none => exact hinit w (by simpa using hw)
        | some x =>
            simp only [sync_records_bookmark_step]
            split_ifs with hx
            · show x ≤ w
              exact List.rel_of_sorted_cons (by simpa using hsorted) w hw
            · exact hinit w (by simp [hw])
      have hhead : ∀ b ∈ (sync_records_bookmarks start
          (sync_records_bookmark_step start bk v) vs).head?,
          bookmarkLe (sync_records_bookmark_step start bk v) b := by
        intro b hb
        cases vs with
        | nil => simp [sync_records_bookmarks] at hb
        | cons v2 vs2 =>
            simp only [sync_records_bookmarks, List.head?_cons, Option.mem_def,
              Option.some.injEq] at hb
            subst hb
            apply bookmark_step_le
            intro w hw
            apply hnext
            rw [hw]
            simp
      show List.Chain' bookmarkLe (_ :: _)
      rw [List.chain'_cons']
      exact ⟨hhead, ih (sync_records_bookmark_step start bk v) hsorted2 hnext⟩

theorem sync_records_bookmarks_bounded (start : ℤ) :
    ∀ (recs : List (Option ℤ)) (bk : Option ℤ),
      ∀ b ∈ sync_records_bookmarks start bk recs,
        b = bk ∨ ∃ v, b = some v ∧ v ≤ start := by
  intro recs
  induction recs with
  | nil => intro bk b hb; simp [sync_records_bookmarks] at hb
  | cons v vs ih =>
      intro bk b hb
      simp only [sync_records_bookmarks, List.mem_cons] at hb
      have hstep : sync_records_bookmark_step start bk v = bk
          ∨ ∃ w, sync_records_bookmark_step start bk v = some w ∧ w ≤ start := by
        cases v with
        | none => exact Or.inl rfl
        | some x =>
            simp only [sync_records_bookmark_step]
            split_ifs with hx
            · exact Or.inr ⟨x, rfl, hx⟩
            · exact Or.inl rfl
      rcases hb with rfl | hb2
      · exact hstep
      · rcases ih (sync_records_bookmark_step start bk v) b hb2 with h1 | h2
        · rw [h1]; exact hstep
        · exact Or.inr h2

/-- C2 (code defect witness): when both PK-chunked submissions fail,
`_bulk_query` performs exactly one retry at the fallback chunk size
2000 after the default 250000 — visible in the event trace — but then,
instead of closing the stale job and falling back to a single
unpartitioned job as the spec requires, raises `UnboundLocalError`:
bulk.py line 147 evaluates `job_id in self.closed_jobs` where the
local `job_id` is first assigned only at line 157.  No unchunked job
is created and no job is closed. -/
theorem bulk_query_double_failure_unbound_local :
    bulk_query 1 true [] 2 true []
      = (.error (.unboundLocalError "job_id"),
         [BulkEv.createJob true 250000, BulkEv.addBatch 1,
          BulkEv.createJob true 2000, BulkEv.addBatch 2]) := rfl

/-- C4 counterexample: a simple (non-pk-chunked) sync that processes
records with replication values 5 then 3 (both ≤ the sync-start time
10) persists bookmark 5 and then overwrites it with 3: the persisted
bookmark after record 2 is smaller than after record 1, refuting the
claimed monotonicity — sync.py line 584 writes `rec[replication_key]`
without comparing it to the previous bookmark. -/
theorem sync_records_bookmark_not_monotone :
    sync_records_bookmarks 10 none [some 5, some 3] = [some 5, some 3]
    ∧ ¬ List.Chain' bookmarkLe (sync_records_bookmarks 10 none [some 5, some 3]) :=
  ⟨rfl, fun h => by
    have h2 : List.Chain' bookmarkLe [some 5, some 3] := h
    have h1 := (List.chain'_cons.mp h2).1
    simp only [bookmarkLe] at h1
    omega⟩

/-- C4 amended: in a simple (non-pk-chunked) sync the persisted
bookmark after each record is the record's replication value when that
value is ≤ the sync-start time and the previous bookmark otherwise;
hence each persisted bookmark is either the initial one or a value
≤ sync start (a record lying in the future relative to sync start
never advances the bookmark), and the bookmark sequence is monotone
non-decreasing provided the records arrive sorted ascending by
replication key with values no lower than the initial bookmark; an
out-of-order record sequence can make the bookmark decrease. -/
theorem sync_records_bookmark_spec (start : ℤ) (bk : Option ℤ)
    (recs : List (Option ℤ)) :
    ((recs.filterMap id).Sorted (· ≤ ·) →
      (∀ w ∈ recs.filterMap id, bookmarkLe bk (some w)) →
      List.Chain' bookmarkLe (sync_records_bookmarks start bk recs))
    ∧ (∀ b ∈ sync_records_bookmarks start bk recs,
        b = bk ∨ ∃ v, b = some v ∧ v ≤ start) :=
  ⟨fun h1 h2 => sync_records_bookmarks_chain start recs bk h1 h2,
   sync_records_bookmarks_bounded start recs bk⟩

/-- Witness for C4's amended claim: an ascending record sequence below
sync start yields a monotone bookmark sequence. -/
theorem sync_records_bookmark_spec_witness :
    List.Chain' bookmarkLe (sync_records_bookmarks 10 none [some 1, some 2]) :=
  (sync_records_bookmark_spec 10 none [some 1, some 2]).1 (by decide) (by decide)

/-! ## Paginated Query Engine: `Salesforce._build_query_string` and
`Rest._query_recur`
(tap_salesforce/salesforce/__init__.py lines 407-446,
tap_salesforce/salesforce/rest.py lines 10-95)

Timestamps are modelled as integers (epoch seconds); the external
`singer.utils` codec `strftime`/`strptime_with_tz` is modelled as the
decimal-integer codec, which round-trips exactly and preserves order.
A day is 86400 seconds; `timedelta // 2` and `timedelta.days` floor,
hence `Int.fdiv`. -/

/-- Model of `singer.utils.strftime`. -/
def strftime (t : ℤ) : String := toString t

/-- Decimal digits to a natural number (helper for the modelled
timestamp codec). -/
def parseNat (cs : List Char) : ℕ :=
  cs.foldl (fun acc c => 10 * acc + (c.toNat - 48)) 0

/-- Model of `singer.utils.strptime_with_tz`: inverse of `strftime`
on its image. -/
def strptime_with_tz (s : String) : ℤ :=
  match s.data with
  | List.cons '-' rest => -(parseNat rest : ℤ)
  | l => (parseNat l : ℤ)

/-- The relevant parts of a catalog entry: stream name, selected
property names, and the catalog metadata's `replication-key` /
`valid-replication-keys` entries. -/
structure CatalogEntry where
  stream : String
  selected_properties : List String
  replication_key : Option String
  valid_replication_keys : List String
deriving DecidableEq, Repr

/-- Embedding of `Salesforce.filtering_can_be_done_with`
(salesforce/__init__.py lines 431-435): a replication key already in
`self.filters_tried` is refused; a fresh key is recorded and accepted.
Returns the answer together with the updated `filters_tried`. -/
def filtering_can_be_done_with (filters_tried : List String) (replication_key : String) :
    Bool × List String :=
  if replication_key ∈ filters_tried then (false, filters_tried)
  else (true, filters_tried ++ [replication_key])

/-- The `valid-replication-keys` loop of
`get_valid_filtering_replication_key` (lines 442-445). -/
def try_valid_keys (filters_tried : List String) :
    List String → Option String × List String
  | [] => (none, filters_tried)
  | k :: ks =>
      let p := filtering_can_be_done_with filters_tried k
      if p.1 then (some k, p.2) else try_valid_keys p.2 ks

/-- Embedding of `Salesforce.get_valid_filtering_replication_key`
(salesforce/__init__.py lines 437-446). -/
def get_valid_filtering_replication_key (filters_tried : List String)
    (cat : CatalogEntry) : Option String × List String :=
  match cat.replication_key with
  | some rk =>
      let p := filtering_can_be_done_with filters_tried rk
      if p.1 then (some rk, p.2) else try_valid_keys p.2 cat.valid_replication_keys
  | none => try_valid_keys filters_tried cat.valid_replication_keys

/-- Embedding of `Salesforce._build_query_string`
(salesforce/__init__.py lines 407-429), threading the mutable
`filters_tried` explicitly.  Format strings from the source:
`"SELECT {} FROM {}"`, `" WHERE {} > {} "` (note the trailing space),
`" AND {} < {}"`, `" ORDER BY {} ASC"`. -/
def build_query_string (filters_tried : List String) (cat : CatalogEntry)
    (start_date : String) (end_date : Option String) (order_by_clause : Bool) :
    String × List String :=
  let query := "SELECT " ++ String.intercalate "," cat.selected_properties
      ++ " FROM " ++ cat.stream
  match get_valid_filtering_replication_key filters_tried cat with
  | (some rk, f2) =>
      let where_clause := " WHERE " ++ rk ++ " > " ++ start_date ++ " "
      let end_date_clause := match end_date with
        | some e => " AND " ++ rk ++ " < " ++ e
        | none => ""
      if order_by_clause then
        (query ++ where_clause ++ end_date_clause ++ " ORDER BY " ++ rk ++ " ASC", f2)
      else (query ++ where_clause ++ end_date_clause, f2)
  | (none, f2) => (query, f2)

/-- `MAX_RETRIES = 4` (rest.py line 10). -/
def MAX_RETRIES : ℕ := 4

/-- Outcome of one `_sync_records` pagination pass (rest.py lines
97-113) as classified by `_query_recur`'s handler: all pages succeed
yielding records, or an `HTTPError` whose body is a `QUERY_TIMEOUT`
error code, or any other `HTTPError` (re-raised, line 72). -/
inductive SyncOutcome
  | ok (recs : List ℕ)
  | queryTimeout
  | httpOther
deriving DecidableEq, Repr

/-- Exceptions escaping `_query_recur`. -/
inductive RestErr
  | ranOutOfRetries
  | zeroDayWindow
  | httpOther
deriving DecidableEq, Repr

/-- Run state threaded through `_query_recur`: the index of the next
remote call (indexing the `env`/`clock` oracles) and the Salesforce
instance's `filters_tried`, plus the trace of query strings issued. -/
structure RestState where
  callIdx : ℕ
  filters_tried : List String
  trace : List String
deriving DecidableEq, Repr

/-- Embedding of `Rest._query_recur` (rest.py lines 24-95).  `env i`
is the outcome of the i-th `_sync_records` pass, `clock i` the value
`singer_utils.now()` reads at the i-th invocation.  Faithful order of
the source: `sync_start` is read and `end_date` defaulted (lines
35-37) before the `retries == 0` raise (lines 39-42), which happens
before any query is issued; a successful pass over a bisected window
(`end_date < sync_start`, line 51) rebuilds the query from `end_date`
and recurses with the same budget; a `QUERY_TIMEOUT` halves the window
(`// 2`, line 79), raises when the half-window is below one day
(`half_day_range.days == 0`, lines 82-84) before issuing anything,
and otherwise rebuilds a windowed query and recurses with
`retries - 1`; any other HTTP error propagates (line 72). -/
def query_recur (env : ℕ → SyncOutcome) (clock : ℕ → ℤ) (cat : CatalogEntry)
    (query : String) (start_date_str : String) (end_date : Option ℤ)
    (retries : ℕ) (st : RestState) : Except RestErr (List ℕ) × RestState :=
  let sync_start := clock st.callIdx
  let endD := end_date.getD sync_start
  if retries = 0 then (.error .ranOutOfRetries, st)
  else
    let st1 : RestState := ⟨st.callIdx + 1, st.filters_tried, st.trace ++ [query]⟩
    match env st.callIdx with
    | .ok recs =>
        if h : endD < sync_start then
          let next_start := strftime endD
          let p := build_query_string st1.filters_tried cat next_start none true
          let r := query_recur env clock cat p.1 next_start none retries
              ⟨st1.callIdx, p.2, st1.trace⟩
          (r.1.map (fun l => recs ++ l), r.2)
        else (.ok recs, st1)
    | .queryTimeout =>
        let start := strptime_with_tz start_date_str
        let half := Int.fdiv (endD - start) 2
        let endD2 := endD - half
        if Int.fdiv half 86400 = 0 then (.error .zeroDayWindow, st1)
        else
          let p := build_query_string st1.filters_tried cat (strftime start)
              (some (strftime endD2)) true
          query_recur env clock cat p.1 start_date_str (some endD2) (retries - 1)
              ⟨st1.callIdx, p.2, st1.trace⟩
    | .httpOther => (.error .httpOther, st1)
termination_by 2 * retries + (if end_date.isSome then 1 else 0)
decreasing_by
  · rcases end_date with _ | e
    · exact absurd h (lt_irrefl (clock st.callIdx))
    · simp
  · rcases end_date with _ | e <;> simp <;> omega

/-- Embedding of `Rest.query` (rest.py lines 17-21, without
`query_override`): builds the initial query through
`_build_query_string` and starts `_query_recur` with the full
`MAX_RETRIES` budget and no end date. -/
def rest_query (env : ℕ → SyncOutcome) (clock : ℕ → ℤ) (cat : CatalogEntry)
    (start_date : String) (st : RestState) : Except RestErr (List ℕ) × RestState :=
  let p := build_query_string st.filters_tried cat start_date none true
  query_recur env clock cat p.1 start_date none MAX_RETRIES
    ⟨st.callIdx, p.2, st.trace⟩

/-- Mapping a function over an `Except` preserves exactly the error. -/
@[simp]
theorem except_map_eq_error_iff (f : List ℕ → List ℕ)
    (r : Except RestErr (List ℕ)) (e : RestErr) :
    r.map f = .error e ↔ r = .error e := by
  cases r <;> simp [Except.map]

theorem query_recur_ne_http_aux (env : ℕ → SyncOutcome) (clock : ℕ → ℤ)
    (cat : CatalogEntry) (hn : ∀ i, env i ≠ SyncOutcome.httpOther) :
    ∀ (n : ℕ) (query start_date_str : String) (end_date : Option ℤ)
      (retries : ℕ) (st : RestState),
      2 * retries + (if end_date.isSome then 1 else 0) ≤ n →
      (query_recur env clock cat query start_date_str end_date retries st).1
        ≠ .error .httpOther := by
  intro n
  induction n with
  | zero =>
      intro q sds ed retries st hle
      have hr : retries = 0 := by
        rcases ed <;> simp at hle <;> omega
      rw [query_recur]
      simp [hr]
  | succ n ih =>
      intro q sds ed retries st hle
      rw [query_recur]
      by_cases hr : retries = 0
      · simp [hr]
      · simp only [hr, if_false]
        cases henv : env st.callIdx with
        | ok recs =>
            simp only [henv]
            by_cases hlt : ed.getD (clock st.callIdx) < clock st.callIdx
            · rcases ed with _ | e
              · exact absurd hlt (by simp)
              · simp only [dif_pos hlt, ne_eq, except_map_eq_error_iff]
                exact ih _ _ none retries _ (by simp at hle ⊢; omega)
            · simp [dif_neg hlt]
        | queryTimeout =>
            simp only [henv]
            by_cases hz : Int.fdiv (Int.fdiv (ed.getD (clock st.callIdx)
                - strptime_with_tz sds) 2) 86400 = 0
            · simp [hz]
            · simp only [hz, if_false]
              refine ih _ _ _ (retries - 1) _ ?_
              rcases ed with _ | e <;> simp at hle ⊢ <;> omega
        | httpOther => exact absurd henv (hn st.callIdx)

theorem query_recur_ne_http (env : ℕ → SyncOutcome) (clock : ℕ → ℤ)
    (cat : CatalogEntry) (hn : ∀ i, env i ≠ SyncOutcome.httpOther)
    (query start_date_str : String) (end_date : Option ℤ)
    (retries : ℕ) (st : RestState) :
    (query_recur env clock cat query start_date_str end_date retries st).1
      ≠ .error .httpOther :=
  query_recur_ne_http_aux env clock cat hn
    (2 * retries + (if end_date.isSome then 1 else 0))
    query start_date_str end_date retries st (le_refl _)

/-- C5: the bisection retry of `_query_recur` always terminates — the
Lean embedding is accepted as total with the decreasing measure
`2 * retries + (1 when a window end is set)`, matching the source where
every `QUERY_TIMEOUT` retry halves the window and decrements the
budget (which `Rest.query` starts at `MAX_RETRIES = 4`), and a
post-window continuation runs with no end date and cannot continue
again without a further timeout — and, when the remote never answers
with a non-timeout HTTP error, the recursion ends either on success,
or raising the fatal out-of-retries error when the budget reaches 0,
or raising the fatal zero-day-window error when a further bisection
would produce a window of zero whole days; no input causes infinite
recursion. -/
theorem query_recur_terminates_trichotomy (env : ℕ → SyncOutcome)
    (clock : ℕ → ℤ) (cat : CatalogEntry)
    (hn : ∀ i, env i ≠ SyncOutcome.httpOther)
    (query start_date_str : String) (end_date : Option ℤ)
    (retries : ℕ) (st : RestState) :
    MAX_RETRIES = 4
    ∧ ((∃ recs, (query_recur env clock cat query start_date_str end_date
            retries st).1 = .ok recs)
       ∨ (query_recur env clock cat query start_date_str end_date retries st).1
           = .error .ranOutOfRetries
       ∨ (query_recur env clock cat query start_date_str end_date retries st).1
           = .error .zeroDayWindow) := by
  refine ⟨rfl, ?_⟩
  have hne := query_recur_ne_http env clock cat hn query start_date_str
    end_date retries st
  rcases hcase : (query_recur env clock cat query start_date_str end_date
      retries st).1 with e | v
  · rcases e with _ | _ | _
    · exact Or.inr (Or.inl rfl)
    · exact Or.inr (Or.inr rfl)
    · exact absurd hcase hne
  · exact Or.inl ⟨v, rfl⟩

/-- Witness for C5: an endpoint that always reports `QUERY_TIMEOUT`
still leaves the engine in one of the three claimed exits. -/
theorem query_recur_terminates_trichotomy_witness :
    MAX_RETRIES = 4
    ∧ ((∃ recs, (query_recur (fun _ => SyncOutcome.queryTimeout)
            (fun _ => (864000 : ℤ))
            ⟨"Account", ["Id"], some "SystemModstamp", ["SystemModstamp"]⟩
            "q" "0" none MAX_RETRIES ⟨0, [], []⟩).1 = .ok recs)
       ∨ (query_recur (fun _ => SyncOutcome.queryTimeout) (fun _ => (864000 : ℤ))
            ⟨"Account", ["Id"], some "SystemModstamp", ["SystemModstamp"]⟩
            "q" "0" none MAX_RETRIES ⟨0, [], []⟩).1 = .error .ranOutOfRetries
       ∨ (query_recur (fun _ => SyncOutcome.queryTimeout) (fun _ => (864000 : ℤ))
            ⟨"Account", ["Id"], some "SystemModstamp", ["SystemModstamp"]⟩
            "q" "0" none MAX_RETRIES ⟨0, [], []⟩).1 = .error .zeroDayWindow) :=
  query_recur_terminates_trichotomy (fun _ => SyncOutcome.queryTimeout)
    (fun _ => (864000 : ℤ))
    ⟨"Account", ["Id"], some "SystemModstamp", ["SystemModstamp"]⟩
    (fun _ => by simp) "q" "0" none MAX_RETRIES ⟨0, [], []⟩

theorem try_valid_keys_all_tried (ks : List String) :
    ∀ filters : List String, (∀ k ∈ ks, k ∈ filters) →
      try_valid_keys filters ks = (none, filters) := by
  induction ks with
  | nil => intro filters _; rfl
  | cons k ks ih =>
      intro filters hall
      have hk : k ∈ filters := hall k (by simp)
      simp only [try_valid_keys, filtering_can_be_done_with, if_pos hk]
      exact ih filters (fun k2 hk2 => hall k2 (by simp [hk2]))

/-- C3 amended: the first query built for a target whose replication
key has not yet been used for filtering carries the
`WHERE rk > start` filter and the `ORDER BY rk ASC` clause, and
records the key in `filters_tried`; but any query rebuilt once every
candidate replication key has already been used — which is the
situation for every bisected-window retry and post-window continuation
of `_query_recur`, since each key is granted at most once per
`Salesforce` instance — is the bare unfiltered, unordered
`SELECT ... FROM ...`. -/
theorem build_query_string_filter_once (cat : CatalogEntry) (sd : String)
    (rk : String) (filters : List String) :
    (cat.replication_key = some rk → rk ∉ filters →
      (build_query_string filters cat sd none true).1
        = "SELECT " ++ String.intercalate "," cat.selected_properties
          ++ " FROM " ++ cat.stream
          ++ " WHERE " ++ rk ++ " > " ++ sd ++ " "
          ++ " ORDER BY " ++ rk ++ " ASC"
      ∧ (build_query_string filters cat sd none true).2 = filters ++ [rk])
    ∧ (∀ (ed : Option String) (ob : Bool),
        (∀ k, cat.replication_key = some k → k ∈ filters) →
        (∀ k ∈ cat.valid_replication_keys, k ∈ filters) →
        (build_query_string filters cat sd ed ob).1
          = "SELECT " ++ String.intercalate "," cat.selected_properties
            ++ " FROM " ++ cat.stream) := by
  constructor
  · intro heq hnot
    simp [build_query_string, get_valid_filtering_replication_key, heq,
      filtering_can_be_done_with, hnot, String.append_empty, String.append_assoc]
  · intro ed ob hrk hvalid
    rcases heq : cat.replication_key with _ | k
    · simp [build_query_string, get_valid_filtering_replication_key, heq,
        try_valid_keys_all_tried cat.valid_replication_keys filters hvalid]
    · have hk : k ∈ filters := hrk k heq
      simp [build_query_string, get_valid_filtering_replication_key, heq,
        filtering_can_be_done_with, hk,
        try_valid_keys_all_tried cat.valid_replication_keys filters hvalid]

/-- Witness for C3's amended claim: the first query for a fresh
`Salesforce` instance is filtered and ordered; the immediate rebuild
with the key already tried is the bare SELECT. -/
theorem build_query_string_filter_once_witness :
    ((build_query_string [] ⟨"Account", ["Id"], some "SystemModstamp",
        ["SystemModstamp"]⟩ "0" none true).1
      = "SELECT Id FROM Account WHERE SystemModstamp > 0  ORDER BY SystemModstamp ASC")
    ∧ ((build_query_string ["SystemModstamp"] ⟨"Account", ["Id"],
        some "SystemModstamp", ["SystemModstamp"]⟩ "0" (some "5") true).1
      = "SELECT Id FROM Account") :=
  ⟨((build_query_string_filter_once ⟨"Account", ["Id"], some "SystemModstamp",
      ["SystemModstamp"]⟩ "0" "SystemModstamp" []).1 rfl (by simp)).1,
   (build_query_string_filter_once ⟨"Account", ["Id"], some "SystemModstamp",
      ["SystemModstamp"]⟩ "0" "SystemModstamp" ["SystemModstamp"]).2
     (some "5") true (fun k hk => by simp at hk; simp [hk]) (by simp)⟩

/-- C3 counterexample: a concrete run of the Paginated Query Engine
for a target with replication key `SystemModstamp`: the initial query
is filtered and ordered, but after one `QUERY_TIMEOUT` the bisected
retry and the following continuation are both issued as the bare
`SELECT Id FROM Account` — with no `WHERE` filter and no `ORDER BY` —
because `filtering_can_be_done_with` refuses the replication key on
every rebuild after the first; this refutes the claim that no query
for such a target is ever issued unfiltered. -/
theorem rest_query_issues_unfiltered_retry :
    ((rest_query (fun i => if i = 0 then SyncOutcome.queryTimeout else SyncOutcome.ok [])
        (fun _ => (864000 : ℤ))
        ⟨"Account", ["Id"], some "SystemModstamp", ["SystemModstamp"]⟩
        "0" ⟨0, [], []⟩).2.trace
      = ["SELECT Id FROM Account WHERE SystemModstamp > 0  ORDER BY SystemModstamp ASC",
         "SELECT Id FROM Account", "SELECT Id FROM Account"])
    ∧ ¬ List.IsInfix " WHERE ".data "SELECT Id FROM Account".data
    ∧ ¬ List.IsInfix " ORDER BY ".data "SELECT Id FROM Account".data := by
  refine ⟨?_, by decide, by decide⟩
  have hb1 : build_query_string [] ⟨"Account", ["Id"], some "SystemModstamp", ["SystemModstamp"]⟩ "0" none true
      = ("SELECT Id FROM Account WHERE SystemModstamp > 0  ORDER BY SystemModstamp ASC", ["SystemModstamp"]) := by decide
  have hb2 : build_query_string ["SystemModstamp"] ⟨"Account", ["Id"], some "SystemModstamp", ["SystemModstamp"]⟩
      (strftime (0 : ℤ)) (some (strftime (432000 : ℤ))) true
      = ("SELECT Id FROM Account", ["SystemModstamp"]) := by decide
  have hb3 : build_query_string ["SystemModstamp"] ⟨"Account", ["Id"], some "SystemModstamp", ["SystemModstamp"]⟩
      (strftime (432000 : ℤ)) none true
      = ("SELECT Id FROM Account", ["SystemModstamp"]) := by decide
  have hsp : strptime_with_tz "0" = 0 := by decide
  have hfd : Int.fdiv ((864000 : ℤ) - 0) 2 = 432000 := by decide
  have hfz : Int.fdiv (432000 : ℤ) 86400 = 5 := by decide
  have step3 : query_recur (fun i => if i = 0 then SyncOutcome.queryTimeout else SyncOutcome.ok [])
      (fun _ => (864000 : ℤ)) ⟨"Account", ["Id"], some "SystemModstamp", ["SystemModstamp"]⟩
      "SELECT Id FROM Account" (strftime (432000 : ℤ)) none 3
      ⟨2, ["SystemModstamp"], ["SELECT Id FROM Account WHERE SystemModstamp > 0  ORDER BY SystemModstamp ASC",
        "SELECT Id FROM Account"]⟩
      = (.ok [], ⟨3, ["SystemModstamp"],
          ["SELECT Id FROM Account WHERE SystemModstamp > 0  ORDER BY SystemModstamp ASC",
           "SELECT Id FROM Account", "SELECT Id FROM Account"]⟩) := by
    rw [query_recur]
    simp
  have step2 : query_recur (fun i => if i = 0 then SyncOutcome.queryTimeout else SyncOutcome.ok [])
      (fun _ => (864000 : ℤ)) ⟨"Account", ["Id"], some "SystemModstamp", ["SystemModstamp"]⟩
      "SELECT Id FROM Account" "0" (some 432000) 3
      ⟨1, ["SystemModstamp"], ["SELECT Id FROM Account WHERE SystemModstamp > 0  ORDER BY SystemModstamp ASC"]⟩
      = (.ok [], ⟨3, ["SystemModstamp"],
          ["SELECT Id FROM Account WHERE SystemModstamp > 0  ORDER BY SystemModstamp ASC",
           "SELECT Id FROM Account", "SELECT Id FROM Account"]⟩) := by
    rw [query_recur]
    simp [hb3, step3, Except.map]
  rw [rest_query]
  simp only [MAX_RETRIES, hb1]
  rw [query_recur]
  simp [hsp, hfd, hfz, hb2, step2, Except.map]

end TapSalesforce
